import Mathlib

/-!
Verification of the realtime_dash repository (src/app_v5_stav_adjustments.py),
a Streamlit polling dashboard over a Databricks warehouse.

The embedding models:
- warehouse rows of the table data_catalog_dev.default.unique_messages_v2 as
  a structure with a written_at timestamp, a written_date timestamp and an
  optional sentiment label (timestamps are unix seconds, days are numbered by
  unix_day = seconds / 86400);
- the four SQL queries of the script as list-processing functions;
- the progress computation of update_dashboard over the rationals;
- the startup assert and the refresh loop as small state machines.
-/

namespace RealtimeDash

/-- A warehouse row: unix-second timestamps and an optional sentiment label
(NULL sentiment is modelled as none). -/
structure Row where
  written_at : Nat
  written_date : Nat
  sentiment : Option String
deriving DecidableEq

/-- Seconds in a day; 288 five-minute buckets. -/
def daySecs : Nat := 86400

/-- The five-minute bucket of a unix timestamp:
from_unixtime(floor(unix_timestamp(written_at) / 300) * 300). -/
def binOf (t : Nat) : Nat := t / 300 * 300

/-- WHERE DATE(written_date) = CURRENT_DATE(): rows whose written_date falls on
the day numbered today. -/
def todayRows (today : Nat) (data : List Row) : List Row :=
  data.filter (fun r => r.written_date / daySecs == today)

/-- The distinct five-minute buckets occupied by today's rows
(GROUP BY of ranked_bins). -/
def dataBins (today : Nat) (data : List Row) : List Nat :=
  ((todayRows today data).map (fun r => binOf r.written_at)).dedup

/-- COUNT(*) of today's rows in bucket t (the cnt column of ranked_bins). -/
def cntAt (today : Nat) (data : List Row) (t : Nat) : Nat :=
  (todayRows today data).countP (fun r => binOf r.written_at == t)

/-- Number of data buckets strictly later than t.  ROW_NUMBER() over the
distinct buckets ordered by time descending assigns bucket t the rank
1 + countGt bins t. -/
def countGt (bins : List Nat) (t : Nat) : Nat :=
  bins.countP (fun x => decide (t < x))

/-- One output row of the time-series query: the generated bucket timestamp,
the joined count (NULL when the bucket was absent from filtered_bins) and the
latest_bin column (cnt when the bucket has rank 2, NULL otherwise). -/
structure OutRow where
  time_bin : Nat
  cnt : Option Nat
  latest_bin : Option Nat
deriving DecidableEq

/-- The row the LEFT JOIN produces for generated bucket t: filtered_bins keeps
the data buckets with rank > 1 (countGt at least 1) and flags the rank-2 bucket
(countGt exactly 1) in latest_status. -/
def lineChartRow (today : Nat) (data : List Row) (t : Nat) : OutRow :=
  if t ∈ dataBins today data ∧ 1 ≤ countGt (dataBins today data) t then
    { time_bin := t
      cnt := some (cntAt today data t)
      latest_bin :=
        if countGt (dataBins today data) t = 1 then some (cntAt today data t) else none }
  else
    { time_bin := t, cnt := none, latest_bin := none }

/-- query_line_chart: the 288 generated buckets
from_unixtime(UNIX_TIMESTAMP(CURRENT_DATE) + id * 300) for id in 0..287,
left-joined against filtered_bins, ordered by bucket time. -/
def lineChart (today : Nat) (data : List Row) : List OutRow :=
  (List.range 288).map (fun i => lineChartRow today data (today * daySecs + i * 300))

/-- Largest element of a list of naturals (0 on the empty list). -/
def maxNat (l : List Nat) : Nat := l.foldr Nat.max 0

theorem le_maxNat {l : List Nat} {x : Nat} (h : x ∈ l) : x ≤ maxNat l := by
  induction l with
  | nil => cases h
  | cons a l ih =>
    rcases List.mem_cons.mp h with h | h
    · subst h
      exact Nat.le_max_left _ _
    · exact le_trans (ih h) (Nat.le_max_right _ _)

theorem maxNat_mem {l : List Nat} (h : l ≠ []) : maxNat l ∈ l := by
  induction l with
  | nil => exact absurd rfl h
  | cons a l ih =>
    rcases eq_or_ne l [] with hl | hl
    · subst hl
      simp [maxNat]
    · rcases Nat.le_total (maxNat l) a with hle | hle
      · have : maxNat (a :: l) = a := by
          simp only [maxNat, List.foldr]
          exact Nat.max_eq_left hle
        rw [this]; exact List.mem_cons_self a l
      · have : maxNat (a :: l) = maxNat l := by
          simp only [maxNat, List.foldr]
          exact Nat.max_eq_right hle
        rw [this]; exact List.mem_cons_of_mem a (ih hl)

theorem countP_le_one_of_unique {p : Nat → Bool} {l : List Nat} (hnd : l.Nodup)
    (huniq : ∀ b ∈ l, ∀ c ∈ l, p b → p c → b = c) : l.countP p ≤ 1 := by
  induction l with
  | nil => simp
  | cons a l ih =>
    rw [List.countP_cons]
    by_cases hpa : p a
    · have hz : l.countP p = 0 := by
        apply List.countP_eq_zero.mpr
        intro b hb hpb
        have : b = a :=
          huniq b (List.mem_cons_of_mem a hb) a (List.mem_cons_self a l) hpb hpa
        subst this
        exact (List.nodup_cons.mp hnd).1 hb
      simp [hz, hpa]
    · have hle := ih (List.nodup_cons.mp hnd).2
        (fun b hb c hc hpb hpc =>
          huniq b (List.mem_cons_of_mem a hb) c (List.mem_cons_of_mem a hc) hpb hpc)
      simp [hpa]
      omega

theorem countP_eq_one_of_unique {p : Nat → Bool} {l : List Nat} (hnd : l.Nodup)
    {a : Nat} (ha : a ∈ l) (hpa : p a)
    (huniq : ∀ b ∈ l, p b → b = a) : l.countP p = 1 := by
  have hle : l.countP p ≤ 1 :=
    countP_le_one_of_unique hnd (fun b hb c hc hpb hpc => by
      rw [huniq b hb hpb, huniq c hc hpc])
  have hpos : 0 < l.countP p := List.countP_pos_iff.mpr ⟨a, ha, hpa⟩
  omega

/-- Among a duplicate-free list of buckets, at most one bucket has exactly one
strictly larger bucket (the rank-2 bucket is unique). -/
theorem rank2_unique {l : List Nat} {b c : Nat} (hb : b ∈ l) (hc : c ∈ l)
    (hb1 : countGt l b = 1) (hc1 : countGt l c = 1) : b = c := by
  rcases Nat.lt_trichotomy b c with hlt | heq | hlt
  · exfalso
    have hfb : (l.filter (fun x => decide (b < x))).length = 1 := by
      rw [← List.countP_eq_length_filter]; exact hb1
    obtain ⟨y, hy⟩ := List.length_eq_one.mp hfb
    have hcy : c ∈ l.filter (fun x => decide (b < x)) :=
      List.mem_filter.mpr ⟨hc, by simpa using hlt⟩
    rw [hy] at hcy
    have hcy' : c = y := by simpa using hcy
    have hpos : 0 < l.countP (fun x => decide (c < x)) := by
      unfold countGt at hc1
      omega
    obtain ⟨z, hzl, hz⟩ := List.countP_pos_iff.mp hpos
    have hcz : c < z := by simpa using hz
    have hzmem : z ∈ l.filter (fun x => decide (b < x)) :=
      List.mem_filter.mpr ⟨hzl, by simpa using lt_trans hlt hcz⟩
    rw [hy] at hzmem
    have : z = y := by simpa using hzmem
    omega
  · exact heq
  · exfalso
    have hfc : (l.filter (fun x => decide (c < x))).length = 1 := by
      rw [← List.countP_eq_length_filter]; exact hc1
    obtain ⟨y, hy⟩ := List.length_eq_one.mp hfc
    have hby : b ∈ l.filter (fun x => decide (c < x)) :=
      List.mem_filter.mpr ⟨hb, by simpa using hlt⟩
    rw [hy] at hby
    have hby' : b = y := by simpa using hby
    have hpos : 0 < l.countP (fun x => decide (b < x)) := by
      unfold countGt at hb1
      omega
    obtain ⟨z, hzl, hz⟩ := List.countP_pos_iff.mp hpos
    have hbz : b < z := by simpa using hz
    have hzmem : z ∈ l.filter (fun x => decide (c < x)) :=
      List.mem_filter.mpr ⟨hzl, by simpa using lt_trans hlt hbz⟩
    rw [hy] at hzmem
    have : z = y := by simpa using hzmem
    omega

/-- A duplicate-free list with at least two elements has a rank-2 element:
one with exactly one strictly larger element. -/
theorem exists_rank2 {l : List Nat} (hnd : l.Nodup) (h2 : 2 ≤ l.length) :
    ∃ b ∈ l, countGt l b = 1 := by
  have hne : l ≠ [] := by
    intro h; subst h; simp at h2
  have hm : maxNat l ∈ l := maxNat_mem hne
  set m := maxNat l with hmdef
  have hperm : List.Perm l (m :: l.erase m) := List.perm_cons_erase hm
  have hlen : (l.erase m).length = l.length - 1 := List.length_erase_of_mem hm
  have hne' : l.erase m ≠ [] := by
    intro h
    rw [h] at hlen
    simp at hlen
    omega
  have hb : maxNat (l.erase m) ∈ l.erase m := maxNat_mem hne'
  set b := maxNat (l.erase m) with hbdef
  have hbl : b ∈ l := List.mem_of_mem_erase hb
  have hbm : b ≠ m := by
    intro h
    have : m ∈ l.erase m := h ▸ hb
    exact (List.Nodup.not_mem_erase hnd) this
  have hblt : b < m := lt_of_le_of_ne (le_maxNat hbl) hbm
  refine ⟨b, hbl, ?_⟩
  unfold countGt
  rw [hperm.countP_eq]
  rw [List.countP_cons]
  have h0 : (l.erase m).countP (fun x => decide (b < x)) = 0 := by
    apply List.countP_eq_zero.mpr
    intro x hx
    have : x ≤ b := le_maxNat hx
    simpa using not_lt_of_le this
  simp [h0, hblt]

theorem countGt_maxNat (l : List Nat) : countGt l (maxNat l) = 0 := by
  apply List.countP_eq_zero.mpr
  intro x hx
  simpa using not_lt_of_le (le_maxNat hx)

theorem mem_dataBins_iff (today : Nat) (data : List Row) (t : Nat) :
    t ∈ dataBins today data ↔ 0 < cntAt today data t := by
  unfold dataBins cntAt
  simp [List.mem_dedup, List.mem_map, List.countP_pos_iff]

theorem mem_dataBins_iff_exists (today : Nat) (data : List Row) (t : Nat) :
    t ∈ dataBins today data ↔ ∃ r ∈ todayRows today data, binOf r.written_at = t := by
  unfold dataBins
  simp [List.mem_dedup, List.mem_map]

theorem lineChartRow_time_bin (today : Nat) (data : List Row) (t : Nat) :
    (lineChartRow today data t).time_bin = t := by
  unfold lineChartRow
  split <;> rfl

theorem lineChartRow_cnt_none {today : Nat} {data : List Row} {t : Nat}
    (h : cntAt today data t = 0) : (lineChartRow today data t).cnt = none := by
  unfold lineChartRow
  rw [if_neg]
  intro hmem
  have := (mem_dataBins_iff today data t).mp hmem.1
  omega

theorem lineChartRow_latest_isSome_iff (today : Nat) (data : List Row) (t : Nat) :
    (lineChartRow today data t).latest_bin.isSome = true ↔
      t ∈ dataBins today data ∧ countGt (dataBins today data) t = 1 := by
  unfold lineChartRow
  by_cases h : t ∈ dataBins today data ∧ 1 ≤ countGt (dataBins today data) t
  · rw [if_pos h]
    by_cases h1 : countGt (dataBins today data) t = 1
    · simp [h1, h.1]
    · constructor
      · intro hfalse
        rw [if_neg h1] at hfalse
        simp at hfalse
      · intro hc
        exact absurd hc.2 h1
  · rw [if_neg h]
    constructor
    · intro hfalse
      simp at hfalse
    · intro hc
      exact absurd ⟨hc.1, le_of_eq hc.2.symm⟩ h

/-- A bucket of today's data that lies inside the current day matches one of
the 288 generated buckets. -/
theorem exists_index_of_bin {today : Nat} {data : List Row} {b : Nat}
    (hb : b ∈ dataBins today data)
    (hrange : ∀ r ∈ todayRows today data,
      today * daySecs ≤ binOf r.written_at ∧ binOf r.written_at < (today + 1) * daySecs) :
    ∃ i, i < 288 ∧ today * daySecs + i * 300 = b := by
  obtain ⟨r, hr, hrb⟩ := (mem_dataBins_iff_exists today data b).mp hb
  obtain ⟨hlo, hhi⟩ := hrange r hr
  rw [hrb] at hlo hhi
  have halign : b % 300 = 0 := by
    rw [← hrb]
    unfold binOf
    exact Nat.mul_mod_left _ _
  unfold daySecs at hlo hhi ⊢
  refine ⟨(b - today * 86400) / 300, ?_, ?_⟩ <;> omega

/-- C3. For every day and every data contents the time-series result has
exactly 288 rows; row i carries the bucket timestamp of 00:00 plus 5 i
minutes of the current day; a bucket with no data carries a null count. -/
theorem time_series_complete (today : Nat) (data : List Row) :
    (lineChart today data).length = 288 ∧
    (∀ i : Nat, ((lineChart today data)[i]?).map OutRow.time_bin =
      if i < 288 then some (today * daySecs + i * 300) else none) ∧
    (∀ r ∈ lineChart today data, cntAt today data r.time_bin = 0 → r.cnt = none) := by
  refine ⟨by simp [lineChart], ?_, ?_⟩
  · intro i
    unfold lineChart
    rw [List.getElem?_map]
    by_cases hi : i < 288
    · rw [List.getElem?_range hi]
      simp [hi, lineChartRow_time_bin]
    · have : (List.range 288)[i]? = none := by
        rw [List.getElem?_eq_none_iff]
        simpa using Nat.le_of_not_lt hi
      rw [this]
      simp [hi]
  · intro r hr hcnt
    obtain ⟨i, _, hreq⟩ := List.mem_map.mp hr
    rw [← hreq]
    apply lineChartRow_cnt_none
    rw [← lineChartRow_time_bin today data (today * daySecs + i * 300), hreq]
    exact hcnt

/-- C3 witness: with no data at all the result still has 288 rows, bucket 0
of day 0 carries timestamp 0, and its count is null. -/
theorem time_series_complete_witness :
    (lineChart 0 []).length = 288 ∧
    ((lineChart 0 [])[0]?).map OutRow.time_bin = some 0 ∧
    (lineChartRow 0 [] 0).cnt = none :=
  ⟨(time_series_complete 0 []).1,
   by
    have h := (time_series_complete 0 []).2.1 0
    simpa using h,
   (time_series_complete 0 []).2.2 (lineChartRow 0 [] 0) (by decide) (by decide)⟩

/-- C1 counterexample: on a cycle where today's data is empty, no bucket at
all is flagged as latest, refuting that exactly one bucket is flagged on
every refresh cycle. -/
theorem latest_flag_spec_false :
    ((lineChart 0 []).filter (fun r => r.latest_bin.isSome)).length = 0 := by
  decide

/-- C1 amended: at most one bucket per cycle is flagged as latest; when
today's data occupies at least two distinct buckets (and the buckets of
today's rows lie inside the current day), exactly one bucket is flagged, and
any flagged bucket is the second-most-recent bucket among those containing
data: exactly one data bucket is later than it, and it is strictly earlier
than the most recent data bucket. -/
theorem latest_flag_amended (today : Nat) (data : List Row)
    (hrange : ∀ r ∈ todayRows today data,
      today * daySecs ≤ binOf r.written_at ∧ binOf r.written_at < (today + 1) * daySecs) :
    ((lineChart today data).filter (fun r => r.latest_bin.isSome)).length ≤ 1 ∧
    (2 ≤ (dataBins today data).length →
      ((lineChart today data).filter (fun r => r.latest_bin.isSome)).length = 1) ∧
    (∀ r ∈ lineChart today data, r.latest_bin.isSome →
      r.time_bin ∈ dataBins today data ∧
      countGt (dataBins today data) r.time_bin = 1 ∧
      r.time_bin < maxNat (dataBins today data)) := by
  have hnd : (dataBins today data).Nodup := List.nodup_dedup _
  have hlen : ((lineChart today data).filter (fun r => r.latest_bin.isSome)).length
      = (List.range 288).countP
          (fun i => (lineChartRow today data (today * daySecs + i * 300)).latest_bin.isSome) := by
    rw [← List.countP_eq_length_filter]
    unfold lineChart
    rw [List.countP_map]
    rfl
  have hP : ∀ i : Nat,
      ((lineChartRow today data (today * daySecs + i * 300)).latest_bin.isSome = true) ↔
      (today * daySecs + i * 300 ∈ dataBins today data ∧
        countGt (dataBins today data) (today * daySecs + i * 300) = 1) :=
    fun i => lineChartRow_latest_isSome_iff today data _
  have huniq : ∀ i ∈ List.range 288, ∀ j ∈ List.range 288,
      (lineChartRow today data (today * daySecs + i * 300)).latest_bin.isSome →
      (lineChartRow today data (today * daySecs + j * 300)).latest_bin.isSome → i = j := by
    intro i _ j _ hi hj
    obtain ⟨him, hic⟩ := (hP i).mp hi
    obtain ⟨hjm, hjc⟩ := (hP j).mp hj
    have := rank2_unique him hjm hic hjc
    omega
  refine ⟨?_, ?_, ?_⟩
  · rw [hlen]
    exact countP_le_one_of_unique (List.nodup_range 288) huniq
  · intro h2
    obtain ⟨b, hbmem, hbr⟩ := exists_rank2 hnd h2
    obtain ⟨i₀, hi₀, hti₀⟩ := exists_index_of_bin hbmem hrange
    rw [hlen]
    apply countP_eq_one_of_unique (List.nodup_range 288) (List.mem_range.mpr hi₀)
    · exact (hP i₀).mpr (by rw [hti₀]; exact ⟨hbmem, hbr⟩)
    · intro j hj hpj
      exact huniq j hj i₀ (List.mem_range.mpr hi₀) hpj ((hP i₀).mpr (by rw [hti₀]; exact ⟨hbmem, hbr⟩))
  · intro r hr hflag
    obtain ⟨i, _, hreq⟩ := List.mem_map.mp hr
    rw [← hreq] at hflag ⊢
    obtain ⟨hm, hc⟩ := (hP i).mp hflag
    rw [lineChartRow_time_bin]
    refine ⟨hm, hc, ?_⟩
    have hpos : 0 < (dataBins today data).countP
        (fun x => decide (today * daySecs + i * 300 < x)) := by
      unfold countGt at hc
      omega
    obtain ⟨x, hx, hxgt⟩ := List.countP_pos_iff.mp hpos
    have hxgt' : today * daySecs + i * 300 < x := by simpa using hxgt
    exact lt_of_lt_of_le hxgt' (le_maxNat hx)

/-- C1 amended witness: two rows of day 0 in buckets 0 and 300 give exactly
one flagged bucket. -/
theorem latest_flag_amended_witness :
    ((lineChart 0 [⟨0, 0, none⟩, ⟨300, 0, none⟩]).filter
      (fun r => r.latest_bin.isSome)).length = 1 :=
  (latest_flag_amended 0 [⟨0, 0, none⟩, ⟨300, 0, none⟩] (by decide)).2.1 (by decide)

/-- C4. The most recent bucket that has data is removed by the rank > 1
filter: its bucket has a positive raw count, its row is present among the 288
output rows, yet its output count and latest flag are both null. -/
theorem inprogress_bucket_null (today : Nat) (data : List Row)
    (hne : dataBins today data ≠ [])
    (hrange : ∀ r ∈ todayRows today data,
      today * daySecs ≤ binOf r.written_at ∧ binOf r.written_at < (today + 1) * daySecs) :
    0 < cntAt today data (maxNat (dataBins today data)) ∧
    lineChartRow today data (maxNat (dataBins today data)) ∈ lineChart today data ∧
    (lineChartRow today data (maxNat (dataBins today data))).cnt = none ∧
    (lineChartRow today data (maxNat (dataBins today data))).latest_bin = none := by
  have hmax : maxNat (dataBins today data) ∈ dataBins today data := maxNat_mem hne
  have hzero : countGt (dataBins today data) (maxNat (dataBins today data)) = 0 :=
    countGt_maxNat _
  have hnot : ¬ (maxNat (dataBins today data) ∈ dataBins today data ∧
      1 ≤ countGt (dataBins today data) (maxNat (dataBins today data))) := by
    intro h
    omega
  refine ⟨(mem_dataBins_iff today data _).mp hmax, ?_, ?_, ?_⟩
  · obtain ⟨i₀, hi₀, hti₀⟩ := exists_index_of_bin hmax hrange
    unfold lineChart
    apply List.mem_map.mpr
    exact ⟨i₀, List.mem_range.mpr hi₀, by rw [hti₀]⟩
  · unfold lineChartRow
    rw [if_neg hnot]
  · unfold lineChartRow
    rw [if_neg hnot]

/-- C4 witness: with rows in buckets 0 and 300 of day 0, bucket 300 is the
most recent data bucket; it has one raw row but a null count and flag. -/
theorem inprogress_bucket_null_witness :
    0 < cntAt 0 [⟨0, 0, none⟩, ⟨300, 0, none⟩]
        (maxNat (dataBins 0 [⟨0, 0, none⟩, ⟨300, 0, none⟩])) ∧
    (lineChartRow 0 [⟨0, 0, none⟩, ⟨300, 0, none⟩]
        (maxNat (dataBins 0 [⟨0, 0, none⟩, ⟨300, 0, none⟩]))).cnt = none :=
  ⟨(inprogress_bucket_null 0 [⟨0, 0, none⟩, ⟨300, 0, none⟩] (by decide) (by decide)).1,
   (inprogress_bucket_null 0 [⟨0, 0, none⟩, ⟨300, 0, none⟩] (by decide) (by decide)).2.2.1⟩

/-- ORDER BY cnt DESC on (sentiment, cnt) pairs. -/
def cntDesc (a b : String × Nat) : Prop := b.2 ≤ a.2

instance : DecidableRel cntDesc := fun a b => Nat.decLe b.2 a.2

instance : IsTotal (String × Nat) cntDesc := ⟨fun a b => Nat.le_total b.2 a.2⟩

instance : IsTrans (String × Nat) cntDesc := ⟨fun _ _ _ hab hbc => le_trans hbc hab⟩

/-- The non-null sentiment labels of today's rows (WHERE clause of
query_sentiment_chart). -/
def sentimentsToday (today : Nat) (data : List Row) : List String :=
  (todayRows today data).filterMap Row.sentiment

/-- query_sentiment_chart: per-sentiment counts of today's non-null-sentiment
rows, ordered by count descending, LIMIT 5. -/
def sentimentChart (today : Nat) (data : List Row) : List (String × Nat) :=
  (List.insertionSort cntDesc
    ((sentimentsToday today data).dedup.map
      (fun s => (s, (sentimentsToday today data).count s)))).take 5

/-- The defensive re-sort sort_values(by="cnt", ascending=False) applied in
update_dashboard before the bar chart is drawn. -/
def dataSentimentChart (today : Nat) (data : List Row) : List (String × Nat) :=
  List.insertionSort cntDesc (sentimentChart today data)

/-- One row of the sentiment trend query result. -/
structure TrendRow where
  written_date : Nat
  sentiment : String
  cnt : Nat
deriving DecidableEq

/-- The (written_date, sentiment) pairs of today's non-null-sentiment rows. -/
def todayNonNull (today : Nat) (data : List Row) : List (Nat × String) :=
  (todayRows today data).filterMap
    (fun r => r.sentiment.map (fun s => (r.written_date, s)))

/-- AggregatedMessages: per (written_date, sentiment) counts. -/
def aggregated (today : Nat) (data : List Row) : List TrendRow :=
  (todayNonNull today data).dedup.map
    (fun p => ⟨p.1, p.2, (todayNonNull today data).count p⟩)

/-- SentimentTotals: per-sentiment sums of the aggregated counts, ordered by
total descending (the LIMIT 5 is applied in top5Sentiments). -/
def sentimentTotals (today : Nat) (data : List Row) : List (String × Nat) :=
  List.insertionSort cntDesc
    (((aggregated today data).map TrendRow.sentiment).dedup.map
      (fun s => (s, (((aggregated today data).filter
        (fun r => r.sentiment == s)).map TrendRow.cnt).sum)))

/-- The at most five sentiments kept by ORDER BY total_count DESC LIMIT 5. -/
def top5Sentiments (today : Nat) (data : List Row) : List String :=
  ((sentimentTotals today data).take 5).map Prod.fst

/-- FilteredMessages: the aggregated rows whose sentiment survived the join
with SentimentTotals. -/
def filteredMessages (today : Nat) (data : List Row) : List TrendRow :=
  (aggregated today data).filter
    (fun r => decide (r.sentiment ∈ top5Sentiments today data))

/-- RANK() OVER (PARTITION BY sentiment ORDER BY written_date DESC): one plus
the number of rows of the same sentiment with a strictly later date. -/
def trendRank (l : List TrendRow) (r : TrendRow) : Nat :=
  1 + l.countP
    (fun q => q.sentiment == r.sentiment && decide (r.written_date < q.written_date))

/-- ORDER BY written_date ASC, sentiment. -/
def dateAsc (a b : TrendRow) : Prop :=
  a.written_date < b.written_date ∨
    (a.written_date = b.written_date ∧ a.sentiment ≤ b.sentiment)

instance : DecidableRel dateAsc := fun a b => by
  unfold dateAsc
  infer_instance

instance : IsTotal TrendRow dateAsc := by
  constructor
  intro a b
  rcases Nat.lt_trichotomy a.written_date b.written_date with h | h | h
  · exact Or.inl (Or.inl h)
  · rcases le_total a.sentiment b.sentiment with hs | hs
    · exact Or.inl (Or.inr ⟨h, hs⟩)
    · exact Or.inr (Or.inr ⟨h.symm, hs⟩)
  · exact Or.inr (Or.inl h)

instance : IsTrans TrendRow dateAsc := by
  constructor
  intro a b c hab hbc
  rcases hab with hab | ⟨hab, hab2⟩ <;> rcases hbc with hbc | ⟨hbc, hbc2⟩
  · exact Or.inl (lt_trans hab hbc)
  · exact Or.inl (hbc ▸ hab)
  · exact Or.inl (hab ▸ hbc)
  · exact Or.inr ⟨hab.trans hbc, le_trans hab2 hbc2⟩

/-- query_sentiment_line_chart: keep the aggregated rows of rank above one
(dropping each sentiment's most recent date) and order them ascending. -/
def sentimentTrend (today : Nat) (data : List Row) : List TrendRow :=
  List.insertionSort dateAsc
    ((filteredMessages today data).filter
      (fun r => decide (1 < trendRank (filteredMessages today data) r)))

theorem trend_mem_filtered {today : Nat} {data : List Row} {r : TrendRow}
    (h : r ∈ sentimentTrend today data) : r ∈ filteredMessages today data := by
  unfold sentimentTrend at h
  rw [List.mem_insertionSort] at h
  exact (List.mem_filter.mp h).1

theorem trend_sentiment_mem_top5 {today : Nat} {data : List Row} {r : TrendRow}
    (h : r ∈ sentimentTrend today data) : r.sentiment ∈ top5Sentiments today data := by
  have h2 := List.mem_filter.mp (trend_mem_filtered h)
  simpa using h2.2

theorem top5Sentiments_length_le (today : Nat) (data : List Row) :
    (top5Sentiments today data).length ≤ 5 := by
  unfold top5Sentiments
  rw [List.length_map]
  exact List.length_take_le _ _

/-- C5. The sentiment distribution shown (after the defensive re-sort) and
the sentiment trend each mention at most five distinct sentiment labels. -/
theorem top5_labels (today : Nat) (data : List Row) :
    ((dataSentimentChart today data).map Prod.fst).toFinset.card ≤ 5 ∧
    ((sentimentTrend today data).map TrendRow.sentiment).toFinset.card ≤ 5 := by
  constructor
  · have h1 : List.Perm (dataSentimentChart today data) (sentimentChart today data) :=
      List.perm_insertionSort _ _
    rw [List.toFinset_eq_of_perm _ _ (h1.map Prod.fst)]
    calc ((sentimentChart today data).map Prod.fst).toFinset.card
        ≤ ((sentimentChart today data).map Prod.fst).length := List.toFinset_card_le _
      _ = (sentimentChart today data).length := List.length_map _ _
      _ ≤ 5 := List.length_take_le _ _
  · have hsub : ((sentimentTrend today data).map TrendRow.sentiment).toFinset ⊆
        (top5Sentiments today data).toFinset := by
      intro s hs
      rw [List.mem_toFinset] at hs ⊢
      obtain ⟨r, hr, hrs⟩ := List.mem_map.mp hs
      rw [← hrs]
      exact trend_sentiment_mem_top5 hr
    calc ((sentimentTrend today data).map TrendRow.sentiment).toFinset.card
        ≤ (top5Sentiments today data).toFinset.card := Finset.card_le_card hsub
      _ ≤ (top5Sentiments today data).length := List.toFinset_card_le _
      _ ≤ 5 := top5Sentiments_length_le today data

/-- C7. Every trend row belongs to a top-5 sentiment and carries the
per-(written_date, sentiment) count; for each output row some aggregated row
of the same sentiment has a strictly later date (each sentiment's most recent
date is excluded); and the output is ordered by ascending date. -/
theorem sentiment_trend_spec (today : Nat) (data : List Row) :
    (∀ r ∈ sentimentTrend today data,
      r.sentiment ∈ top5Sentiments today data ∧
      r.cnt = (todayNonNull today data).count (r.written_date, r.sentiment) ∧
      ∃ q ∈ filteredMessages today data,
        q.sentiment = r.sentiment ∧ r.written_date < q.written_date) ∧
    (sentimentTrend today data).Pairwise
      (fun a b => a.written_date ≤ b.written_date) := by
  constructor
  · intro r hr
    refine ⟨trend_sentiment_mem_top5 hr, ?_, ?_⟩
    · have hagg : r ∈ aggregated today data :=
        List.mem_filter.mp (trend_mem_filtered hr) |>.1
      obtain ⟨p, _, hpr⟩ := List.mem_map.mp hagg
      have h1 : r.written_date = p.1 := by rw [← hpr]
      have h2 : r.sentiment = p.2 := by rw [← hpr]
      have h3 : r.cnt = (todayNonNull today data).count p := by rw [← hpr]
      rw [h1, h2, h3]
    · have hkept : r ∈ (filteredMessages today data).filter
          (fun q => decide (1 < trendRank (filteredMessages today data) q)) := by
        unfold sentimentTrend at hr
        rwa [List.mem_insertionSort] at hr
      have hrank := of_decide_eq_true (List.mem_filter.mp hkept).2
      unfold trendRank at hrank
      have hpos : 0 < (filteredMessages today data).countP
          (fun q => q.sentiment == r.sentiment && decide (r.written_date < q.written_date)) := by
        omega
      obtain ⟨q, hq, hqp⟩ := List.countP_pos_iff.mp hpos
      rw [Bool.and_eq_true] at hqp
      exact ⟨q, hq, by simpa using hqp.1, by simpa using hqp.2⟩
  · apply List.Pairwise.imp ?_ (List.sorted_insertionSort dateAsc _)
    intro a b hab
    rcases hab with h | h
    · exact le_of_lt h
    · exact le_of_eq h.1

/-- C7 witness: two rows of sentiment "pos" on dates 0 and 50 of day 0 keep
exactly the earlier date with its count, restricted to the top-5 labels. -/
theorem sentiment_trend_spec_witness :
    (⟨0, "pos", 1⟩ : TrendRow) ∈
      sentimentTrend 0 [⟨0, 0, some "pos"⟩, ⟨0, 50, some "pos"⟩] ∧
    ("pos" ∈ top5Sentiments 0 [⟨0, 0, some "pos"⟩, ⟨0, 50, some "pos"⟩] ∧
      (1 : Nat) = (todayNonNull 0 [⟨0, 0, some "pos"⟩, ⟨0, 50, some "pos"⟩]).count (0, "pos")) :=
  ⟨by decide,
   ((sentiment_trend_spec 0 [⟨0, 0, some "pos"⟩, ⟨0, 50, some "pos"⟩]).1
      ⟨0, "pos", 1⟩ (by decide)).1,
   ((sentiment_trend_spec 0 [⟨0, 0, some "pos"⟩, ⟨0, 50, some "pos"⟩]).1
      ⟨0, "pos", 1⟩ (by decide)).2.1⟩

/-- C8. An empty sentiment distribution result is accepted by the re-sort and
produces a bar chart with zero bars. -/
theorem empty_distribution_ok (today : Nat) (data : List Row)
    (h : sentimentsToday today data = []) :
    sentimentChart today data = [] ∧ dataSentimentChart today data = [] ∧
    (dataSentimentChart today data).length = 0 := by
  unfold dataSentimentChart sentimentChart
  rw [h]
  simp

/-- C8 witness: a single today row with NULL sentiment gives an empty
distribution and a zero-bar chart. -/
theorem empty_distribution_ok_witness :
    sentimentChart 0 [⟨0, 0, none⟩] = [] ∧
    (dataSentimentChart 0 [⟨0, 0, none⟩]).length = 0 :=
  ⟨(empty_distribution_ok 0 [⟨0, 0, none⟩] (by decide)).1,
   (empty_distribution_ok 0 [⟨0, 0, none⟩] (by decide)).2.2⟩

/-- goal_messages = 1_100_000, the fixed goal constant of update_dashboard. -/
def goal_messages : ℚ := 1100000

/-- remaining_messages = max(goal_messages - total_messages_so_far, 0). -/
def remaining_messages (total : ℚ) : ℚ := max (goal_messages - total) 0

/-- Count / goal_messages * 100, the Percentage column of progress_data. -/
def percentage (count : ℚ) : ℚ := count / goal_messages * 100

/-- The Percentage value of the "Messages So Far" row. -/
def achievedPct (total : ℚ) : ℚ := percentage total

/-- The Percentage value of the "Remaining" row. -/
def remainingPct (total : ℚ) : ℚ := percentage (remaining_messages total)

/-- The fixed y-axis range [0, 100] of the progress panel. -/
def yaxisRange : ℚ × ℚ := (0, 100)

/-- C6. The progress computation: the goal is 1,100,000; the achieved
percentage is monotone in the total; for totals up to the goal the achieved
and remaining percentages sum to exactly 100; beyond the goal the remaining
count is clamped to 0. -/
theorem progress_spec (t u : ℚ) :
    goal_messages = 1100000 ∧
    (t ≤ u → achievedPct t ≤ achievedPct u) ∧
    (t ≤ goal_messages → achievedPct t + remainingPct t = 100) ∧
    (goal_messages < t → remaining_messages t = 0) := by
  refine ⟨rfl, ?_, ?_, ?_⟩
  · intro h
    unfold achievedPct percentage
    have hdiv : t / goal_messages ≤ u / goal_messages :=
      (div_le_div_iff_of_pos_right (by norm_num [goal_messages])).mpr h
    exact mul_le_mul_of_nonneg_right hdiv (by norm_num)
  · intro h
    unfold achievedPct remainingPct percentage remaining_messages
    rw [max_eq_left (by unfold goal_messages at h ⊢; linarith)]
    unfold goal_messages
    field_simp
    ring
  · intro h
    unfold remaining_messages
    exact max_eq_right (by unfold goal_messages at h ⊢; linarith)

/-- C6 witness: at half the goal the achieved and remaining percentages sum
to 100, and the achieved percentage is monotone from 550,000 to 600,000. -/
theorem progress_spec_witness :
    achievedPct 550000 + remainingPct 550000 = 100 ∧
    achievedPct 550000 ≤ achievedPct 600000 :=
  ⟨(progress_spec 550000 550000).2.2.1 (by decide),
   (progress_spec 550000 600000).2.1 (by decide)⟩

/-- C9. Beyond the goal only the remaining part is clamped: remaining is 0,
the achieved percentage exceeds the top of the fixed y-axis (100), and the
two percentages sum to more than 100. -/
theorem progress_over_goal (t : ℚ) (h : goal_messages < t) :
    remaining_messages t = 0 ∧
    yaxisRange.2 < achievedPct t ∧
    100 < achievedPct t + remainingPct t := by
  have hrem : remaining_messages t = 0 := by
    unfold remaining_messages
    exact max_eq_right (by unfold goal_messages at h ⊢; linarith)
  have hach : 100 < achievedPct t := by
    unfold achievedPct percentage
    unfold goal_messages at h ⊢
    rw [div_mul_eq_mul_div, lt_div_iff₀ (by norm_num : (0:ℚ) < 1100000)]
    nlinarith
  refine ⟨hrem, hach, ?_⟩
  have : remainingPct t = 0 := by
    unfold remainingPct
    rw [hrem]
    unfold percentage
    simp
  rw [this]
  simpa using hach

/-- C9 witness: a total of 1,200,000 exceeds the goal; remaining is clamped
to 0 and the achieved percentage exceeds 100. -/
theorem progress_over_goal_witness :
    remaining_messages 1200000 = 0 ∧ yaxisRange.2 < achievedPct 1200000 :=
  ⟨(progress_over_goal 1200000 (by decide)).1,
   (progress_over_goal 1200000 (by decide)).2.1⟩

/-- Outcome of one call of update_dashboard: either it returns normally or it
raises (a connection or query error surfaces as an exception). -/
inductive CycleOutcome where
  | ok : CycleOutcome
  | err : String → CycleOutcome
deriving DecidableEq

/-- State of the refresh loop after running with the given fuel: either an
uncaught exception ended the loop at some cycle, or the loop is still alive
waiting to run the given next cycle. -/
inductive LoopResult where
  | crashed : Nat → String → LoopResult
  | running : Nat → LoopResult
deriving DecidableEq

/-- The while True loop: run update_dashboard(counter); there is no
try/except, so an error outcome propagates and ends the loop; otherwise the
counter increments and the loop continues. -/
def runLoop (outcome : Nat → CycleOutcome) : Nat → Nat → LoopResult
  | counter, 0 => .running counter
  | counter, fuel + 1 =>
    match outcome counter with
    | .ok => runLoop outcome (counter + 1) fuel
    | .err m => .crashed counter m

/-- The cycles the loop actually starts, in order. -/
def executedCycles (outcome : Nat → CycleOutcome) : Nat → Nat → List Nat
  | _, 0 => []
  | counter, fuel + 1 =>
    match outcome counter with
    | .ok => counter :: executedCycles outcome (counter + 1) fuel
    | .err _ => [counter]

/-- A run in which the warehouse is unreachable on cycle 0 only. -/
def connFailAtZero : Nat → CycleOutcome :=
  fun n => if n = 0 then .err "ConnectionError" else .ok

/-- C2 (code bug): a connection failure on cycle 0 is not isolated: the
uncaught exception terminates the loop at cycle 0 and cycle 1 never runs,
however much fuel remains. -/
theorem cycle_failure_kills_loop :
    runLoop connFailAtZero 0 5 = .crashed 0 "ConnectionError" ∧
    1 ∉ executedCycles connFailAtZero 0 5 ∧
    executedCycles connFailAtZero 0 5 = [0] := by
  refine ⟨rfl, ?_, rfl⟩
  intro h
  simp [executedCycles, connFailAtZero] at h

/-- Python truthiness of os.getenv: None (unset) and the empty string are
falsy; any other string is truthy. -/
def envTruthy : Option String → Bool
  | none => false
  | some s => !s.isEmpty

/-- The module-level assert on DATABRICKS_WAREHOUSE_ID: startup is fatal
exactly when the environment value is falsy. -/
def startupFatal (env : Option String) : Bool := !envTruthy env

/-- The module-level statements that run at startup, in order: the page
configuration runs before the assert; the CSS and title markdown and the
refresh loop run only if the assert passes. -/
inductive StartupStep where
  | pageConfig : StartupStep
  | cssMarkdown : StartupStep
  | titleMarkdown : StartupStep
  | refreshLoop : StartupStep
deriving DecidableEq

/-- The startup steps that actually execute for a given environment value. -/
def startupSteps (env : Option String) : List StartupStep :=
  if envTruthy env then
    [.pageConfig, .cssMarkdown, .titleMarkdown, .refreshLoop]
  else
    [.pageConfig]

/-- C10 counterexample: with DATABRICKS_WAREHOUSE_ID set to the empty string
the variable is set, yet startup is fatal — refuting that startup proceeds
past the check for every run with the variable set. -/
theorem startup_env_spec_false :
    (some "" : Option String).isSome = true ∧ startupFatal (some "") = true := by
  decide

/-- C10 amended: with the variable absent (or set to the empty string, which
Python treats as falsy) startup is fatal and nothing after the assert — no
panel markup and no refresh loop — executes; with the variable set to any
non-empty string startup proceeds past the check. -/
theorem startup_env_amended (env : Option String) :
    (envTruthy env = false →
      startupFatal env = true ∧
      StartupStep.cssMarkdown ∉ startupSteps env ∧
      StartupStep.titleMarkdown ∉ startupSteps env ∧
      StartupStep.refreshLoop ∉ startupSteps env) ∧
    (env = none → envTruthy env = false) ∧
    (∀ s : String, env = some s → ¬ s.isEmpty → startupFatal env = false) := by
  refine ⟨?_, ?_, ?_⟩
  · intro h
    unfold startupFatal startupSteps
    rw [h]
    refine ⟨rfl, ?_, ?_, ?_⟩ <;> simp
  · intro h
    rw [h]
    rfl
  · intro s hs hne
    unfold startupFatal envTruthy
    rw [hs]
    simp
    exact Bool.of_not_eq_true hne

/-- C10 amended witness: an unset variable is fatal before any panel
renders; the value "abc123" passes the check. -/
theorem startup_env_amended_witness :
    (startupFatal none = true ∧ StartupStep.refreshLoop ∉ startupSteps none) ∧
    startupFatal (some "abc123") = false :=
  ⟨⟨((startup_env_amended none).1 (by decide)).1,
    ((startup_env_amended none).1 (by decide)).2.2.2⟩,
   (startup_env_amended (some "abc123")).2.2 "abc123" rfl (by decide)⟩

end RealtimeDash
